import Mathlib

/-!
Verification of the httpbin-monitor backend core
(`backend/src/services/database.ts`, `backend/src/services/ping.ts`,
`backend/src/services/anomalyDetection.ts`) against its natural-language
specification.  The TypeScript code is shallowly embedded: SQLite queries are
given their SQL semantics over an in-memory list of rows, JavaScript number
arithmetic is embedded as exact rational arithmetic with an explicit `NaN`
marker where the code can divide by zero, and the stateful services become
explicit state-passing functions.
-/

namespace HttpbinMonitor

/-- `request_type` column / `requestType` field: `'manual' | 'auto'`. -/
inductive RequestType where
  | manual : RequestType
  | auto : RequestType
deriving DecidableEq, Repr

/-- One row of the `ping_records` table (interface `PingRecord` in
`database.ts`).  `timestamp` is the ISO-8601 string stored in the `DATETIME`
column; SQLite compares such TEXT values byte-wise, which the Lean `String`
order mirrors for ASCII ISO timestamps.  `statusCode` and `responseTime` are
the integer columns; `id` is the AUTOINCREMENT primary key. -/
structure PingRecord where
  id : Nat
  timestamp : String
  requestPayload : String
  responseData : String
  statusCode : Nat
  responseTime : Nat
  contentType : Option String
  contentLength : Option Nat
  requestType : RequestType
deriving DecidableEq, Repr

/-- The filter configuration accepted by `getPingRecords`.  A field being
`none` models the JavaScript property being absent. -/
structure Filters where
  statusCode : Option Nat
  minResponseTime : Option Nat
  maxResponseTime : Option Nat
  startTime : Option String
  endTime : Option String
deriving DecidableEq, Repr

/-- The filter configuration with every option omitted. -/
def Filters.empty : Filters :=
  { statusCode := none, minResponseTime := none, maxResponseTime := none,
    startTime := none, endTime := none }

/-- JavaScript truthiness of an optional number, as tested by
`if (filters.statusCode)` etc. in `getPingRecords`: absent and `0` are both
falsy. -/
def natOptActive : Option Nat → Bool
  | none => false
  | some v => v != 0

/-- JavaScript truthiness of an optional string, as tested by
`if (filters.startTime)`: absent and the empty string are both falsy. -/
def strOptActive : Option String → Bool
  | none => false
  | some s => s != ""

/-- The `WHERE` clause built by `getPingRecords`, as a predicate on one row:
each option contributes its conjunct only when the corresponding
`if (filters.x)` test passes (JavaScript truthiness). -/
def matchesFilters (f : Filters) (r : PingRecord) : Bool :=
  (!natOptActive f.statusCode || r.statusCode == f.statusCode.getD 0) &&
  (!natOptActive f.minResponseTime || f.minResponseTime.getD 0 ≤ r.responseTime) &&
  (!natOptActive f.maxResponseTime || r.responseTime ≤ f.maxResponseTime.getD 0) &&
  (!strOptActive f.startTime || f.startTime.getD "" ≤ r.timestamp) &&
  (!strOptActive f.endTime || r.timestamp ≤ f.endTime.getD "")

/-- `ORDER BY timestamp DESC`: timestamps are non-increasing along the list. -/
def tsDescSorted (l : List PingRecord) : Prop :=
  List.Pairwise (fun a b => b.timestamp ≤ a.timestamp) l

/-- SQL semantics of `getPingRecords(limit, offset, filters)`.  The `COUNT`
query gives `total` over the rows passing the `WHERE` clause; the data query
returns `LIMIT limit OFFSET offset` of the matching rows ordered by
`ORDER BY timestamp DESC`.  The SQL names no tiebreaker, so any
timestamp-descending permutation of the matching rows is an admissible
ordering; the relation holds of every output the statement permits. -/
def queryAdmissible (store : List PingRecord) (limit offset : Nat) (f : Filters)
    (out : List PingRecord) (total : Nat) : Prop :=
  total = (store.filter (matchesFilters f)).length ∧
  ∃ ordered : List PingRecord,
    ordered.Perm (store.filter (matchesFilters f)) ∧
    tsDescSorted ordered ∧
    out = (ordered.drop offset).take limit

/-! ### Statistics (`getStatistics` in `database.ts`) -/

/-- A JavaScript number that is either an ordinary (here: exact rational)
value or `NaN`.  Needed because `getStatistics` divides by `totalRequests`
without guarding against `0`, and in JavaScript `0 / 0 = NaN`. -/
inductive JsNum where
  | nan : JsNum
  | num : ℚ → JsNum
deriving DecidableEq, Repr

/-- JavaScript division restricted to the shapes the embedded code produces:
the numerators at hand are `0` whenever the denominator is `0`, so a zero
denominator yields `NaN`. -/
def jsDiv (a b : ℚ) : JsNum :=
  if b = 0 then JsNum.nan else JsNum.num (a / b)

/-- `Math.round` on a non-`NaN` value: round half toward positive infinity,
`Math.round(x) = ⌊x + 1/2⌋`. -/
def jsRound (q : ℚ) : ℤ :=
  ⌊q + 1 / 2⌋

/-- `Math.round` lifted to `JsNum`; `Math.round(NaN) = NaN`. -/
def jsRoundNum : JsNum → JsNum
  | JsNum.nan => JsNum.nan
  | JsNum.num q => JsNum.num (jsRound q)

/-- One row of the `GROUP BY status_code` aggregate query in `getStatistics`:
`COUNT(*)`, `AVG(response_time)`, `SUM(CASE WHEN status_code < 400 THEN 1
ELSE 0 END)` and the grouping key. -/
structure StatsRow where
  totalRequests : Nat
  averageResponseTime : ℚ
  successCount : Nat
  status_code : Nat
deriving DecidableEq, Repr

/-- Sum of the `response_time` column over a list of rows, as a rational. -/
def responseTimeSum (l : List PingRecord) : ℚ :=
  (l.map (fun r => (r.responseTime : ℚ))).sum

/-- The aggregate row for one status-code group `c` of the window `w`:
`COUNT(*)`, `AVG(response_time)` (exact rational; a group reached from the
window is nonempty, so this division is by a nonzero count),
`SUM(CASE WHEN status_code < 400 THEN 1 ELSE 0 END)`, and the key. -/
def mkStatsRow (w : List PingRecord) (c : Nat) : StatsRow :=
  let g := w.filter (fun r => r.statusCode == c)
  { totalRequests := g.length,
    averageResponseTime := responseTimeSum g / (g.length : ℚ),
    successCount := (g.filter (fun r => r.statusCode < 400)).length,
    status_code := c }

/-- The rows produced by the `GROUP BY status_code` query over the window
`w`: one row per distinct status code, aggregating the rows of that group.
SQL fixes no output order for the groups; the list order here is immaterial
to every theorem below. -/
def sqlStatsRows (w : List PingRecord) : List StatsRow :=
  (w.map (fun r => r.statusCode)).dedup.map (mkStatsRow w)

/-- The value computed by `getStatistics` (the JavaScript reduction over the
grouped rows).  `statusCodeDistribution` is the object keyed by the status
codes present in the window: `some` on present keys, `none` on absent ones. -/
structure Statistics where
  totalRequests : Nat
  averageResponseTime : JsNum
  successRate : ℤ
  statusCodeDistribution : Nat → Option Nat

/-- `getStatistics` restricted to its pure computation: the window `w` stands
for the rows with `timestamp >= datetime('now', '-<hours> hours')`.  Mirrors
the JavaScript: `totalRequests` and `successCount` are sums over the grouped
rows, `averageResponseTime` is `Σ (avg_g * count_g) / totalRequests` rounded
(`NaN` when the window is empty, since `0 / 0 = NaN`), `successRate` is
guarded against an empty window, and the distribution maps each grouped
status code to its group count. -/
def getStatistics (w : List PingRecord) : Statistics :=
  let rows := sqlStatsRows w
  let totalRequests := (rows.map (fun row => row.totalRequests)).sum
  let successCount := (rows.map (fun row => row.successCount)).sum
  let averageResponseTime :=
    (rows.map (fun row => row.averageResponseTime * (row.totalRequests : ℚ))).sum
  { totalRequests := totalRequests,
    averageResponseTime := jsRoundNum (jsDiv averageResponseTime (totalRequests : ℚ)),
    successRate :=
      if 0 < totalRequests then
        jsRound (((successCount : ℚ) / (totalRequests : ℚ)) * 100)
      else 0,
    statusCodeDistribution := fun c =>
      (rows.find? (fun row => row.status_code == c)).map (fun row => row.totalRequests) }

/-! ### Anomaly detection (`anomalyDetection.ts`) -/

/-- `AnomalyData.type` in the source. -/
inductive AnomalyType where
  | response_time : AnomalyType
  | status_code : AnomalyType
  | error_rate : AnomalyType
deriving DecidableEq, Repr

/-- `AnomalyData.severity` in the source. -/
inductive Severity where
  | low : Severity
  | medium : Severity
  | high : Severity
deriving DecidableEq, Repr

/-- The `AnomalyData` payload broadcast by the analyzer.  The source's
`message` (a display string built with floating-point `toFixed` formatting)
and `threshold` (for the latency kind `mean + z·stdDev`, an irrational real)
fields are omitted from the embedding; no claim under verification depends on
their values. -/
structure AnomalyData where
  timestamp : String
  type : AnomalyType
  severity : Severity
  value : ℚ
  recordId : Option Nat
deriving DecidableEq, Repr

/-- `DEFAULT_Z_SCORE_THRESHOLD = 2.5`. -/
def defaultZScoreThreshold : ℚ := 5 / 2

/-- `DEFAULT_RESPONSE_TIME_THRESHOLD = 5000` (ms). -/
def defaultResponseTimeThreshold : Nat := 5000

/-- The `responseTime` column of the window, as rationals (the `values`
argument of `calculateRollingStats`). -/
def windowResponseTimes (w : List PingRecord) : List ℚ :=
  w.map (fun r => (r.responseTime : ℚ))

/-- `calculateRollingStats`: the mean of the samples. -/
def rollingMean (values : List ℚ) : ℚ :=
  values.sum / (values.length : ℚ)

/-- `calculateRollingStats`: the (population) variance of the samples;
the source's `stdDev` is its square root, handled at the proposition level
as `Real.sqrt` since it is irrational in general. -/
def rollingVariance (values : List ℚ) : ℚ :=
  (values.map (fun v => (v - rollingMean values) ^ 2)).sum / (values.length : ℚ)

/-- The comparison `zScore > t` of `analyzeResponseTimes`, where
`zScore = |responseTime − mean| / stdDev`, embedded by squaring to stay in
exact arithmetic: `(responseTime − mean)² > t² · variance`.  For `t ≥ 0` this
is equivalent to `|responseTime − mean| > t·√variance` (lemma
`zScoreGt_iff_sqrt`), which agrees with the JavaScript comparison in every
case, including `stdDev = 0` where the JavaScript division yields `NaN`
(deviation `0`: no trigger) or `Infinity` (nonzero deviation: trigger). -/
def zScoreGt (w : List PingRecord) (r : PingRecord) (t : ℚ) : Bool :=
  decide (((r.responseTime : ℚ) - rollingMean (windowResponseTimes w)) ^ 2 >
    t ^ 2 * rollingVariance (windowResponseTimes w))

/-- The trigger condition of `analyzeResponseTimes`:
`zScore > Z_SCORE_THRESHOLD && record.responseTime > RESPONSE_TIME_THRESHOLD`. -/
def latencyTrigger (w : List PingRecord) (r : PingRecord) : Bool :=
  zScoreGt w r defaultZScoreThreshold &&
    decide (defaultResponseTimeThreshold < r.responseTime)

/-- `zScore > 3.5 ? 'high' : zScore > 3.0 ? 'medium' : 'low'`. -/
def latencySeverity (w : List PingRecord) (r : PingRecord) : Severity :=
  if zScoreGt w r (7 / 2) then Severity.high
  else if zScoreGt w r 3 then Severity.medium
  else Severity.low

/-- The event built for a qualifying record in `analyzeResponseTimes`. -/
def mkLatencyEvent (w : List PingRecord) (r : PingRecord) : AnomalyData :=
  { timestamp := r.timestamp,
    type := AnomalyType.response_time,
    severity := latencySeverity w r,
    value := (r.responseTime : ℚ),
    recordId := some r.id }

/-- `analyzeResponseTimes`: one event per record of the window whose trigger
condition holds, in window order. -/
def analyzeResponseTimes (w : List PingRecord) : List AnomalyData :=
  (w.filter (latencyTrigger w)).map (mkLatencyEvent w)

/-- JavaScript `Array.prototype.slice(-n)`: the last `n` elements (all of
them when the array is shorter). -/
def jsSliceLast (n : Nat) (l : List PingRecord) : List PingRecord :=
  l.drop (l.length - n)

/-- `analyzeStatusCodes`: slice the last 20 elements of the window array,
count status codes `≥ 400` there, and emit one `status_code` event when at
least 3 are errors.  `now` stands for `new Date().toISOString()`. -/
def analyzeStatusCodes (now : String) (records : List PingRecord) : List AnomalyData :=
  let recentRecords := jsSliceLast 20 records
  let errorCodes := recentRecords.filter (fun r => 400 ≤ r.statusCode)
  if 3 ≤ errorCodes.length then
    let errorRate : ℚ := ((errorCodes.length : ℚ) / (recentRecords.length : ℚ)) * 100
    [{ timestamp := now,
       type := AnomalyType.status_code,
       severity :=
         if 50 ≤ errorRate then Severity.high
         else if 25 ≤ errorRate then Severity.medium
         else Severity.low,
       value := errorRate,
       recordId := none }]
  else []

/-- The hour bucket `record.timestamp.substring(0, 13)` (`YYYY-MM-DDTHH`). -/
def hourKey (r : PingRecord) : String :=
  r.timestamp.take 13

/-- `groupByHour`: the window partitioned by hour bucket.  The JavaScript
object iterates buckets in key-insertion order; the bucket order is
immaterial to every theorem below, so the deduplicated key list's order is
not made to match it. -/
def groupByHour (records : List PingRecord) : List (String × List PingRecord) :=
  (records.map hourKey).dedup.map (fun h =>
    (h, records.filter (fun r => hourKey r == h)))

/-- `analyzeErrorRates`: per hour bucket, emit one `error_rate` event when
`errorRate > 30 && hourRecords.length >= 5`. -/
def analyzeErrorRates (records : List PingRecord) : List AnomalyData :=
  ((groupByHour records).map (fun p =>
    let errorCount := (p.2.filter (fun r => 400 ≤ r.statusCode)).length
    let errorRate : ℚ := ((errorCount : ℚ) / (p.2.length : ℚ)) * 100
    if 30 < errorRate ∧ 5 ≤ p.2.length then
      [{ timestamp := p.1,
         type := AnomalyType.error_rate,
         severity := if 50 ≤ errorRate then Severity.high else Severity.medium,
         value := errorRate,
         recordId := none }]
    else [])).flatten

/-- `performAnalysis` restricted to its pure computation: `w` is the 24-hour
window fetched from the store (newest first) and `now` the wall-clock time;
the result is the sequence of anomaly events broadcast during the cycle.
With fewer than 10 records the cycle is skipped entirely; otherwise the three
checks run in source order. -/
def performAnalysis (now : String) (w : List PingRecord) : List AnomalyData :=
  if w.length < 10 then []
  else analyzeResponseTimes w ++ analyzeStatusCodes now w ++ analyzeErrorRates w

/-! ### Connection lifecycle (`DatabaseService.initialize` / `close` and the
per-operation guard) -/

/-- The two distinct failures an operation on the store can reject with.
`storageUnavailable` is the guard rejection `new Error('Database not
initialized')` taken when `this.db` is null — the error the specification
names `StorageUnavailable`.  `handleClosed` is the rejection surfaced by the
sqlite3 driver when a statement (or a second `close`) is run on a handle that
has already been closed; this branch is modelled from the driver's behavior
(`SQLITE_MISC: Database handle is closed`), the driver being an external
dependency of the repository. -/
inductive DBErr where
  | storageUnavailable : DBErr
  | handleClosed : DBErr
deriving DecidableEq, Repr

/-- The connection-relevant state of a `DatabaseService`: `db = none` models
the field `this.db` being null; `db = some b` models the field holding a
driver handle whose open flag is `b`. -/
structure DBConn where
  db : Option Bool
deriving DecidableEq, Repr

/-- A service on which `initialize()` was never called. -/
def uninitConn : DBConn := { db := none }

/-- A service after a successful `initialize()`: the field holds an open
handle. -/
def openConn : DBConn := { db := some true }

/-- The shared prologue of `insertPingRecord`, `getPingRecords`,
`getRecentRecords` and `getStatistics`: each first rejects with the guard
error when `this.db` is null, and otherwise runs its statement on the handle,
which the driver rejects when the handle is closed.  `none` means the
operation proceeds to its normal result. -/
def opErr (s : DBConn) : Option DBErr :=
  match s.db with
  | none => some DBErr.storageUnavailable
  | some true => none
  | some false => some DBErr.handleClosed

/-- `insertPingRecord`'s connection outcome. -/
def insertPingRecordErr (s : DBConn) : Option DBErr := opErr s

/-- `getPingRecords`'s connection outcome. -/
def getPingRecordsErr (s : DBConn) : Option DBErr := opErr s

/-- `getRecentRecords`'s connection outcome. -/
def getRecentRecordsErr (s : DBConn) : Option DBErr := opErr s

/-- `getStatistics`'s connection outcome. -/
def getStatisticsErr (s : DBConn) : Option DBErr := opErr s

/-- `close()`: resolves immediately when `this.db` is null; otherwise calls
`this.db.close(cb)` and settles with the driver's outcome.  Note the method
never assigns `this.db = null`, so after a successful close the field still
holds the now-closed handle; a further `close()` reaches the driver again,
which rejects on an already-closed handle (driver behavior, as in `opErr`). -/
def close (s : DBConn) : Except DBErr DBConn :=
  match s.db with
  | none => Except.ok s
  | some true => Except.ok { db := some false }
  | some false => Except.error DBErr.handleClosed

/-! ### Probe scheduler lifecycle (`PingService.start` / `stop`) -/

/-- The timer-relevant state of a `PingService` together with the runtime it
lives in: `storedInterval` is the field `this.interval` (a timer handle or
null), `armedTimers` the handles of every repeating timer currently armed in
the runtime, `probesStarted` the number of `performPing()` invocations made
so far, and `nextTimerId` the next fresh handle `setInterval` will return. -/
structure SchedState where
  storedInterval : Option Nat
  armedTimers : List Nat
  probesStarted : Nat
  nextTimerId : Nat
deriving DecidableEq, Repr

/-- A scheduler as constructed: not running, nothing armed. -/
def initialSchedState : SchedState :=
  { storedInterval := none, armedTimers := [], probesStarted := 0, nextTimerId := 0 }

/-- The scheduler is running when `this.interval` is set. -/
def SchedState.running (s : SchedState) : Prop :=
  s.storedInterval.isSome

/-- `start()`: performs one immediate probe and arms a fresh repeating timer,
unconditionally — the method never tests whether `this.interval` is already
set, and the new handle overwrites the stored one without the previous timer
being cleared. -/
def PingService.start (s : SchedState) : SchedState :=
  { storedInterval := some s.nextTimerId,
    armedTimers := s.armedTimers ++ [s.nextTimerId],
    probesStarted := s.probesStarted + 1,
    nextTimerId := s.nextTimerId + 1 }

/-- `stop()`: clears the timer whose handle is stored in `this.interval`, if
any, and nulls the field. -/
def PingService.stop (s : SchedState) : SchedState :=
  match s.storedInterval with
  | none => s
  | some t =>
    { storedInterval := none,
      armedTimers := s.armedTimers.erase t,
      probesStarted := s.probesStarted,
      nextTimerId := s.nextTimerId }

/-! ### Probe failure path (the `catch` branch of `performPing`) -/

/-- A record as handed to `insertPingRecord`
(`Omit<PingRecord, 'id'>` in the source). -/
structure RecordInput where
  timestamp : String
  requestPayload : String
  responseData : String
  statusCode : Nat
  responseTime : Nat
  contentType : Option String
  contentLength : Option Nat
  requestType : RequestType
deriving DecidableEq, Repr

/-- `{ id: recordId, ...record }`, the payload of the `newPingRecord`
broadcast. -/
def RecordInput.withId (recordId : Nat) (r : RecordInput) : PingRecord :=
  { id := recordId,
    timestamp := r.timestamp,
    requestPayload := r.requestPayload,
    responseData := r.responseData,
    statusCode := r.statusCode,
    responseTime := r.responseTime,
    contentType := r.contentType,
    contentLength := r.contentLength,
    requestType := r.requestType }

/-- `axiosError?.code || 'UNKNOWN_ERROR'`: `none` models a non-Axios error
(the optional chain yields `undefined`), and the empty string is falsy. -/
def jsCodeOr : Option String → String
  | none => "UNKNOWN_ERROR"
  | some c => if c = "" then "UNKNOWN_ERROR" else c

/-- `JSON.stringify({ error: message, code, config })` for message and code
values free of JSON-escapable characters (the verified scenario's
`"ECONNREFUSED"` and `"UNKNOWN_ERROR"` qualify); `cfgJson` is the serialized
`config` value (`"null"` for a non-Axios error). -/
def errorResponseData (msg code cfgJson : String) : String :=
  "\x7b\"error\":\"" ++ msg ++
    ("\",\"code\":\"" ++ code ++ "\",\"config\":" ++ cfgJson ++ "\x7d")

/-- The record built in the `catch` branch of `performPing`: status code
`axiosError?.response?.status || 0` (for a status this equals the status when
a response was carried and `0` otherwise), the serialized error descriptor as
response data, content type `application/json`, content length `0`. -/
def buildErrorRecord (now payloadStr : String) (responseTime : Nat) (msg : String)
    (code : Option String) (respStatus : Option Nat) (cfgJson : String)
    (requestType : RequestType) : RecordInput :=
  { timestamp := now,
    requestPayload := payloadStr,
    responseData := errorResponseData msg (jsCodeOr code) cfgJson,
    statusCode := respStatus.getD 0,
    responseTime := responseTime,
    contentType := some "application/json",
    contentLength := some 0,
    requestType := requestType }

/-- An event emitted on the socket server during a probe. -/
inductive Emit where
  | newPingRecord : PingRecord → Emit
deriving DecidableEq, Repr

/-- The tail of the `catch` branch of `performPing`, as a function of the
insert's outcome: on success the record is broadcast with its assigned id; a
failure to insert is caught by the inner `try/catch`, logged and swallowed.
The result is `Except.ok` in both cases — an `Except.error` here would model
`performPing` rejecting, which the branch never does. -/
def performPingFailure (record : RecordInput) (ins : Except DBErr Nat) :
    Except DBErr (List Emit) :=
  match ins with
  | Except.ok recordId => Except.ok [Emit.newPingRecord (record.withId recordId)]
  | Except.error _ => Except.ok []

/-! ### Specification-shaped definitions (for refinement comparisons) -/

/-- Following the spec's words: results ordered by timestamp descending with
ties broken by `id` descending.  Compared against the SQL semantics
`queryAdmissible`, whose `ORDER BY` names no tiebreaker. -/
def tsIdDescSorted (l : List PingRecord) : Prop :=
  List.Pairwise (fun a b =>
    b.timestamp < a.timestamp ∨ (b.timestamp = a.timestamp ∧ b.id < a.id)) l

/-- Following the spec's words: every supplied filter option constrains the
record (`statusCode` exact match, response-time and timestamp bounds
inclusive); an omitted option imposes no constraint.  Compared against the
code's `matchesFilters`, which also ignores supplied falsy values. -/
def specMatches (f : Filters) (r : PingRecord) : Prop :=
  (∀ c ∈ f.statusCode, r.statusCode = c) ∧
  (∀ v ∈ f.minResponseTime, v ≤ r.responseTime) ∧
  (∀ v ∈ f.maxResponseTime, r.responseTime ≤ v) ∧
  (∀ t ∈ f.startTime, t ≤ r.timestamp) ∧
  (∀ t ∈ f.endTime, r.timestamp ≤ t)

/-- The spec's z-score comparison `zScore > t`, with
`zScore = |responseTimeMs − mean| / stdDev` and `stdDev = √variance`, over
the reals. -/
def specZScoreGt (w : List PingRecord) (r : PingRecord) (t : ℚ) : Prop :=
  (t : ℝ) < |(r.responseTime : ℝ) - (rollingMean (windowResponseTimes w) : ℝ)| /
    Real.sqrt (rollingVariance (windowResponseTimes w) : ℝ)

/-! ### Concrete fixtures used by the theorems -/

/-- A record with the given id, timestamp, status code and response time; the
payload fields are irrelevant to the properties at hand. -/
def mkTestRecord (i : Nat) (ts : String) (sc rt : Nat) : PingRecord :=
  { id := i, timestamp := ts, requestPayload := "p", responseData := "d",
    statusCode := sc, responseTime := rt, contentType := none,
    contentLength := none, requestType := RequestType.auto }

/-- First of two records sharing one timestamp. -/
def recTieA : PingRecord := mkTestRecord 1 "2024-01-01T00:00:00" 200 100

/-- Second of two records sharing one timestamp. -/
def recTieB : PingRecord := mkTestRecord 2 "2024-01-01T00:00:00" 200 100

/-- A store holding two records with equal timestamps and ids 1, 2. -/
def tieStore : List PingRecord := [recTieA, recTieB]

/-- The spec's statistics example: response times 100, 200, 300 with status
codes 200, 200, 500. -/
def statsWindow3 : List PingRecord :=
  [mkTestRecord 1 "2024-01-01T00:00:01" 200 100,
   mkTestRecord 2 "2024-01-01T00:00:02" 200 200,
   mkTestRecord 3 "2024-01-01T00:00:03" 500 300]

/-- The outlier of the spec's latency example: id 21, 8000 ms. -/
def latencyOutlier : PingRecord :=
  mkTestRecord 21 "2024-01-01T00:00:00" 200 8000

/-- The spec's latency example: 20 records at 100 ms and one (id 21) at
8000 ms. -/
def latencyWindow21 : List PingRecord :=
  [mkTestRecord 1 "2024-01-01T00:00:00" 200 100,
   mkTestRecord 2 "2024-01-01T00:00:00" 200 100,
   mkTestRecord 3 "2024-01-01T00:00:00" 200 100,
   mkTestRecord 4 "2024-01-01T00:00:00" 200 100,
   mkTestRecord 5 "2024-01-01T00:00:00" 200 100,
   mkTestRecord 6 "2024-01-01T00:00:00" 200 100,
   mkTestRecord 7 "2024-01-01T00:00:00" 200 100,
   mkTestRecord 8 "2024-01-01T00:00:00" 200 100,
   mkTestRecord 9 "2024-01-01T00:00:00" 200 100,
   mkTestRecord 10 "2024-01-01T00:00:00" 200 100,
   mkTestRecord 11 "2024-01-01T00:00:00" 200 100,
   mkTestRecord 12 "2024-01-01T00:00:00" 200 100,
   mkTestRecord 13 "2024-01-01T00:00:00" 200 100,
   mkTestRecord 14 "2024-01-01T00:00:00" 200 100,
   mkTestRecord 15 "2024-01-01T00:00:00" 200 100,
   mkTestRecord 16 "2024-01-01T00:00:00" 200 100,
   mkTestRecord 17 "2024-01-01T00:00:00" 200 100,
   mkTestRecord 18 "2024-01-01T00:00:00" 200 100,
   mkTestRecord 19 "2024-01-01T00:00:00" 200 100,
   mkTestRecord 20 "2024-01-01T00:00:00" 200 100,
   latencyOutlier]

/-- Record `i` of the burst fixture: timestamps strictly decreasing in `i`,
the 20 newest records all status 500, the 20 oldest all status 200. -/
def burstRecord (i : Nat) : PingRecord :=
  mkTestRecord (40 - i) ("2024-01-01T10:" ++ toString (59 - i))
    (if i < 20 then 500 else 200) 100

/-- A 24h window as `getRecentRecords` returns it (newest first): 40 records,
the 20 newest all errors, the 20 oldest all successes. -/
def burstWindow40 : List PingRecord := (List.range 40).map burstRecord

/-- A filter configuration supplying only `statusCode`. -/
def statusOnlyFilter (c : Nat) : Filters :=
  { Filters.empty with statusCode := some c }

/-- A record with status 200 (fails an exact match against 0). -/
def rec200 : PingRecord := mkTestRecord 1 "2024-01-01T00:00:00" 200 100

/-- A record with status 0, otherwise identical to `nonZeroRec` but for the
id. -/
def zeroRec : PingRecord := mkTestRecord 1 "2024-01-01T00:00:00" 0 100

/-- A record with status 200, otherwise identical to `zeroRec` but for the
id. -/
def nonZeroRec : PingRecord := mkTestRecord 2 "2024-01-01T00:00:00" 200 100

/-- A service whose handle was closed but — as `close()` never nulls
`this.db` — whose field still holds the closed handle. -/
def closedConn : DBConn := { db := some false }

/-- A scheduler on which `start()` was called once: running, one armed
timer, one probe performed. -/
def runningSched : SchedState := PingService.start initialSchedState

/-! ## Shared lemmas -/

/-- The error descriptor `JSON.stringify({error, code, config})` contains the
error message as a substring. -/
theorem errorResponseData_infix (msg code cfgJson : String) :
    msg.data <:+: (errorResponseData msg code cfgJson).data := by
  refine ⟨"\x7b\"error\":\"".data,
    ("\",\"code\":\"" ++ code ++ "\",\"config\":" ++ cfgJson ++ "\x7d").data, ?_⟩
  simp [errorResponseData]

/-! ## Claim theorems -/

/-- **C6, counterexample.**  After `initialize(); close()` the store is in
state `closedConn` (the handle closed, but `this.db` still set).  The next
`insertPingRecord` then fails with the driver's handle-closed error and not
with the `StorageUnavailable` guard error, and a second `close()` fails
rather than succeeding idempotently — refuting the claim that `close()` is
idempotent and that post-close operations fail with `StorageUnavailable`. -/
theorem C6_counterexample :
    close openConn = Except.ok closedConn ∧
    insertPingRecordErr closedConn = some DBErr.handleClosed ∧
    insertPingRecordErr closedConn ≠ some DBErr.storageUnavailable ∧
    close closedConn = Except.error DBErr.handleClosed := by
  refine ⟨rfl, rfl, by decide, rfl⟩

/-- **C6, amended.**  `close()` on a never-opened store succeeds and leaves
it unchanged, and operations there fail with `StorageUnavailable`; a
successful `close()` does not clear `this.db`, so afterwards every operation
(insert, query, recent, statistics) fails with the driver's handle-closed
error — a different error than `StorageUnavailable` — and a second `close()`
fails with that driver error as well instead of being a no-op. -/
theorem C6_amended :
    close uninitConn = Except.ok uninitConn ∧
    insertPingRecordErr uninitConn = some DBErr.storageUnavailable ∧
    getPingRecordsErr uninitConn = some DBErr.storageUnavailable ∧
    getRecentRecordsErr uninitConn = some DBErr.storageUnavailable ∧
    getStatisticsErr uninitConn = some DBErr.storageUnavailable ∧
    close openConn = Except.ok closedConn ∧
    insertPingRecordErr closedConn = some DBErr.handleClosed ∧
    getPingRecordsErr closedConn = some DBErr.handleClosed ∧
    getRecentRecordsErr closedConn = some DBErr.handleClosed ∧
    getStatisticsErr closedConn = some DBErr.handleClosed ∧
    DBErr.handleClosed ≠ DBErr.storageUnavailable ∧
    close closedConn = Except.error DBErr.handleClosed := by
  refine ⟨rfl, rfl, rfl, rfl, rfl, rfl, rfl, rfl, rfl, rfl, by decide, rfl⟩

/-- **C7, counterexample.**  On the running scheduler `runningSched` (one
`start()` already performed), a second `start()` is not a no-op: it performs
one more immediate probe and leaves two repeating timers armed — refuting
the claim that `start()` on a running scheduler performs no probe and leaves
exactly one armed timer. -/
theorem C7_counterexample :
    SchedState.running runningSched ∧
    PingService.start runningSched ≠ runningSched ∧
    (PingService.start runningSched).probesStarted = runningSched.probesStarted + 1 ∧
    (PingService.start runningSched).armedTimers.length = 2 := by
  refine ⟨rfl, by decide, by decide, by decide⟩

/-- **C7, amended.**  `start()` never tests the running flag: on every
scheduler state — running or not — it performs one additional immediate
probe and arms one additional repeating timer, overwriting the stored handle
with the fresh one (the previously armed timer is not cleared). -/
theorem C7_amended : ∀ s : SchedState,
    (PingService.start s).probesStarted = s.probesStarted + 1 ∧
    (PingService.start s).armedTimers = s.armedTimers ++ [s.nextTimerId] ∧
    (PingService.start s).armedTimers.length = s.armedTimers.length + 1 ∧
    (PingService.start s).storedInterval = some s.nextTimerId := by
  intro s
  refine ⟨rfl, rfl, ?_, rfl⟩
  simp [PingService.start]

/-- **C8.**  For every probe failure carrying message `"ECONNREFUSED"` and
no HTTP response, the record built by the `catch` branch has `statusCode 0`,
its `responseData` contains the substring `"ECONNREFUSED"`, its content type
is `application/json` with content length `0`; when the insert succeeds the
record is broadcast (with `statusCode 0`) as a `newPingRecord` event, and
when the insert fails the error is swallowed: `performPing` resolves without
emitting. -/
theorem C8 : ∀ (now payloadStr : String) (rt : Nat) (code : Option String)
    (cfgJson : String) (rq : RequestType) (recordId : Nat) (e : DBErr),
    (buildErrorRecord now payloadStr rt "ECONNREFUSED" code none cfgJson rq).statusCode = 0 ∧
    "ECONNREFUSED".data <:+:
      (buildErrorRecord now payloadStr rt "ECONNREFUSED" code none cfgJson rq).responseData.data ∧
    (buildErrorRecord now payloadStr rt "ECONNREFUSED" code none cfgJson rq).contentType =
      some "application/json" ∧
    (buildErrorRecord now payloadStr rt "ECONNREFUSED" code none cfgJson rq).contentLength =
      some 0 ∧
    performPingFailure (buildErrorRecord now payloadStr rt "ECONNREFUSED" code none cfgJson rq)
        (Except.ok recordId) =
      Except.ok [Emit.newPingRecord
        ((buildErrorRecord now payloadStr rt "ECONNREFUSED" code none cfgJson rq).withId recordId)] ∧
    ((buildErrorRecord now payloadStr rt "ECONNREFUSED" code none cfgJson rq).withId
        recordId).statusCode = 0 ∧
    performPingFailure (buildErrorRecord now payloadStr rt "ECONNREFUSED" code none cfgJson rq)
        (Except.error e) = Except.ok [] := by
  intro now payloadStr rt code cfgJson rq recordId e
  exact ⟨rfl, errorResponseData_infix "ECONNREFUSED" (jsCodeOr code) cfgJson,
    rfl, rfl, rfl, rfl, rfl⟩

/-- **C9.**  An analysis cycle whose 24-hour window holds fewer than 10
records emits no anomaly event: `performAnalysis` returns the empty event
list without running any of the three checks. -/
theorem C9 : ∀ (now : String) (w : List PingRecord),
    w.length < 10 → performAnalysis now w = [] := by
  intro now w h
  simp [performAnalysis, h]

/-- **C9, witness.**  The skip at a concrete 3-record window. -/
theorem C9_witness : performAnalysis "2024-01-01T00:00:00" statsWindow3 = [] :=
  C9 "2024-01-01T00:00:00" statsWindow3 (by decide)

/-- **C10.**  A supplied filter option whose value is `0` is treated exactly
as an omitted option (`statusCode`, `minResponseTimeMs`,
`maxResponseTimeMs`), and consequently no filter configuration selects
exactly the records with `statusCode = 0`: for every configuration there is
a store on which the matched subset differs from the `statusCode = 0`
subset. -/
theorem C10 :
    (∀ (f : Filters) (r : PingRecord),
      matchesFilters { f with statusCode := some 0 } r =
        matchesFilters { f with statusCode := none } r) ∧
    (∀ (f : Filters) (r : PingRecord),
      matchesFilters { f with minResponseTime := some 0 } r =
        matchesFilters { f with minResponseTime := none } r) ∧
    (∀ (f : Filters) (r : PingRecord),
      matchesFilters { f with maxResponseTime := some 0 } r =
        matchesFilters { f with maxResponseTime := none } r) ∧
    (∀ f : Filters, ∃ store : List PingRecord,
      store.filter (matchesFilters f) ≠
        store.filter (fun r => r.statusCode == 0)) := by
  refine ⟨?_, ?_, ?_, ?_⟩
  · intro f r; simp [matchesFilters, natOptActive]
  · intro f r; simp [matchesFilters, natOptActive]
  · intro f r; simp [matchesFilters, natOptActive]
  · intro f
    by_cases h : natOptActive f.statusCode = true
    · refine ⟨[zeroRec], ?_⟩
      obtain ⟨c, hc⟩ : ∃ c, f.statusCode = some c := by
        cases hsc : f.statusCode with
        | none => rw [hsc] at h; simp [natOptActive] at h
        | some c => exact ⟨c, rfl⟩
      have hcne : c ≠ 0 := by
        rw [hc] at h; simpa [natOptActive] using h
      have hm : matchesFilters f zeroRec = false := by
        have hbeq : (zeroRec.statusCode == c) = false := by
          simp [zeroRec, mkTestRecord]; omega
        rw [hc] at h
        simp [matchesFilters, hc, h, hbeq]
      have hz : (zeroRec.statusCode == 0) = true := by decide
      simp [List.filter_cons, hm, hz]
    · refine ⟨[zeroRec, nonZeroRec], ?_⟩
      simp only [Bool.not_eq_true] at h
      have hb : matchesFilters f zeroRec = matchesFilters f nonZeroRec := by
        simp [matchesFilters, h, zeroRec, nonZeroRec, mkTestRecord]
      have hz : (zeroRec.statusCode == 0) = true := by decide
      have hnz : (nonZeroRec.statusCode == 0) = false := by decide
      cases hzb : matchesFilters f zeroRec with
      | false =>
        have hnb : matchesFilters f nonZeroRec = false := hb.symm.trans hzb
        simp [List.filter_cons, hzb, hnb, hz, hnz]
      | true =>
        have hnb : matchesFilters f nonZeroRec = true := hb.symm.trans hzb
        simp [List.filter_cons, hzb, hnb, hz, hnz]

/-- **C4, code evaluated at the failing input.**  `burstWindow40` is a
newest-first 24h window whose 20 newest records are all errors
(`statusCode 500`), so the claimed burst check must emit one event; the code
instead slices the *last* 20 elements of the newest-first array — the 20
oldest records, here all successes — and emits nothing. -/
theorem C4_code_eval :
    analyzeStatusCodes "2024-01-01T11:00:00" burstWindow40 = [] ∧
    tsDescSorted burstWindow40 ∧
    ((burstWindow40.take 20).filter (fun r => 400 ≤ r.statusCode)).length = 20 ∧
    jsSliceLast 20 burstWindow40 = burstWindow40.drop 20 := by
  refine ⟨by decide, ?_, by decide, by decide⟩
  unfold tsDescSorted
  simp only [String.le_iff_toList_le]
  decide

/-- On the tie store (two records with equal timestamps, ids 1 and 2), the
id-ascending output `[recTieA, recTieB]` is an admissible result of the SQL
query: it is a timestamp-descending permutation of the matching rows. -/
theorem tieQueryAdmissible :
    queryAdmissible tieStore 2 0 Filters.empty [recTieA, recTieB] 2 := by
  refine ⟨by decide, [recTieA, recTieB], by decide, ?_, by decide⟩
  unfold tsDescSorted
  simp only [String.le_iff_toList_le]
  decide

/-- Every admissible query output is a sublist of an admissible ordering, so
its timestamps are non-increasing. -/
theorem queryAdmissible_tsDesc {store : List PingRecord} {limit offset : Nat}
    {f : Filters} {out : List PingRecord} {total : Nat}
    (h : queryAdmissible store limit offset f out total) : tsDescSorted out := by
  obtain ⟨-, ordered, -, hsort, rfl⟩ := h
  exact hsort.sublist ((List.take_sublist _ _).trans (List.drop_sublist _ _))

/-- **C1, counterexample.**  The SQL `ORDER BY timestamp DESC` names no
tiebreaker, so on a store with two records sharing a timestamp the
id-*ascending* output is admissible; it is not sorted by (timestamp, id)
descending, refuting the claimed deterministic id-descending tiebreak. -/
theorem C1_counterexample :
    queryAdmissible tieStore 2 0 Filters.empty [recTieA, recTieB] 2 ∧
    ¬ tsIdDescSorted [recTieA, recTieB] := by
  refine ⟨tieQueryAdmissible, ?_⟩
  intro h
  have hrel := (List.pairwise_cons.mp h).1 recTieB (List.mem_cons_self _ _)
  rcases hrel with hlt | ⟨-, hid⟩
  · exact lt_irrefl _ hlt
  · exact absurd hid (by decide)

/-- **C1, amended.**  Query results are ordered by timestamp descending, but
the SQL imposes no id tiebreak: the relative order of records with equal
timestamps is unspecified, and the output is not deterministic — on the tie
store both orders of the two matching records are admissible outputs of the
same call. -/
theorem C1_amended :
    (∀ (store : List PingRecord) (limit offset : Nat) (f : Filters)
        (out : List PingRecord) (total : Nat),
      queryAdmissible store limit offset f out total → tsDescSorted out) ∧
    (∃ out out' : List PingRecord, out ≠ out' ∧
      queryAdmissible tieStore 2 0 Filters.empty out 2 ∧
      queryAdmissible tieStore 2 0 Filters.empty out' 2) := by
  constructor
  · intro store limit offset f out total h
    exact queryAdmissible_tsDesc h
  · refine ⟨[recTieA, recTieB], [recTieB, recTieA], by decide, tieQueryAdmissible, ?_⟩
    refine ⟨by decide, [recTieB, recTieA], by decide, ?_, by decide⟩
    unfold tsDescSorted
    simp only [String.le_iff_toList_le]
    decide

/-- For a nonzero status code, the code's filter predicate with only
`statusCode` supplied is the exact-match test. -/
theorem matchesFilters_statusOnly (c : Nat) (hc : c ≠ 0) (r : PingRecord) :
    matchesFilters (statusOnlyFilter c) r = (r.statusCode == c) := by
  simp [matchesFilters, statusOnlyFilter, Filters.empty, natOptActive, strOptActive, hc]

/-- Soundness of every admissible query output: the reported `total` counts
the matching rows, and every returned record is a matching record of the
store. -/
theorem queryAdmissible_sound {store : List PingRecord} {limit offset : Nat}
    {f : Filters} {out : List PingRecord} {total : Nat}
    (h : queryAdmissible store limit offset f out total) :
    total = (store.filter (matchesFilters f)).length ∧
    ∀ r ∈ out, r ∈ store ∧ matchesFilters f r = true := by
  obtain ⟨htotal, ordered, hperm, -, rfl⟩ := h
  refine ⟨htotal, ?_⟩
  intro r hr
  have hr1 : r ∈ ordered :=
    List.mem_of_mem_drop (List.mem_of_mem_take hr)
  have hr2 : r ∈ store.filter (matchesFilters f) := hperm.mem_iff.mp hr1
  exact ⟨(List.mem_filter.mp hr2).1, (List.mem_filter.mp hr2).2⟩

/-- **C5, counterexample.**  The option `statusCode: 0` is supplied but —
being falsy — imposes no constraint: the record with status 200 passes the
code's filter, the spec's exact-match reading rejects it, and the query
admits output `[rec200]` with `total = 1` where the claim demands the empty
result with `total = 0`. -/
theorem C5_counterexample :
    matchesFilters (statusOnlyFilter 0) rec200 = true ∧
    ¬ specMatches (statusOnlyFilter 0) rec200 ∧
    queryAdmissible [rec200] 10 0 (statusOnlyFilter 0) [rec200] 1 := by
  refine ⟨by decide, ?_, ?_⟩
  · rintro ⟨h1, -, -, -, -⟩
    have h200 := h1 0 rfl
    simp [rec200, mkTestRecord] at h200
  · refine ⟨by decide, [rec200], by decide, ?_, by decide⟩
    unfold tsDescSorted
    simp only [String.le_iff_toList_le]
    decide

/-- **C5, amended.**  For filter configurations whose supplied options are
truthy (nonzero numbers, nonempty strings) the code's predicate is exactly
the spec's conjunction of constraints; options supplied as `0` (or as the
empty string) are instead treated as omitted.  For every admissible query
output, `total` is the matching count regardless of `limit`/`offset` and the
returned records are matching records of the store; with
`filter = {statusCode: 404}` the returned records are exactly records with
status 404, `total` counts that subset, and an unpaginated call returns a
permutation of the whole subset. -/
theorem C5_amended :
    (∀ (f : Filters) (r : PingRecord),
      (∀ v ∈ f.statusCode, v ≠ 0) → (∀ v ∈ f.minResponseTime, v ≠ 0) →
      (∀ v ∈ f.maxResponseTime, v ≠ 0) → (∀ t ∈ f.startTime, t ≠ "") →
      (∀ t ∈ f.endTime, t ≠ "") →
      (matchesFilters f r = true ↔ specMatches f r)) ∧
    (∀ (store : List PingRecord) (limit offset : Nat) (f : Filters)
        (out : List PingRecord) (total : Nat),
      queryAdmissible store limit offset f out total →
        total = (store.filter (matchesFilters f)).length ∧
        ∀ r ∈ out, r ∈ store ∧ matchesFilters f r = true) ∧
    (∀ (store : List PingRecord) (limit offset : Nat)
        (out : List PingRecord) (total : Nat),
      queryAdmissible store limit offset (statusOnlyFilter 404) out total →
        (∀ r ∈ out, r ∈ store ∧ r.statusCode = 404) ∧
        total = (store.filter (fun r => r.statusCode == 404)).length ∧
        (offset = 0 → total ≤ limit →
          out.Perm (store.filter (fun r => r.statusCode == 404)))) := by
  have hpred : ∀ r : PingRecord,
      matchesFilters (statusOnlyFilter 404) r = (r.statusCode == 404) :=
    fun r => matchesFilters_statusOnly 404 (by decide) r
  refine ⟨?_, ?_, ?_⟩
  · intro f r h1 h2 h3 h4 h5
    obtain ⟨sc, mn, mx, st, en⟩ := f
    rcases sc with _ | c <;> rcases mn with _ | vmin <;> rcases mx with _ | vmax <;>
      rcases st with _ | s <;> rcases en with _ | e <;>
      simp_all [matchesFilters, specMatches, natOptActive, strOptActive, and_assoc]
  · intro store limit offset f out total h
    exact queryAdmissible_sound h
  · intro store limit offset out total h
    obtain ⟨htotal, hmem⟩ := queryAdmissible_sound h
    refine ⟨?_, ?_, ?_⟩
    · intro r hr
      obtain ⟨hrs, hrm⟩ := hmem r hr
      refine ⟨hrs, ?_⟩
      rw [hpred r] at hrm
      simpa using hrm
    · rw [htotal]
      congr 1
      exact List.filter_congr (fun r _ => hpred r)
    · intro hoff hlim
      obtain ⟨htot, ordered, hperm, -, hout⟩ := h
      have hlen : ordered.length = total := by
        rw [hperm.length_eq, htot]
      have hout2 : out = ordered := by
        rw [hout, hoff, List.drop_zero,
          List.take_of_length_le (by rw [hlen]; exact hlim)]
      rw [hout2, ← List.filter_congr (fun r _ => hpred r)]
      exact hperm

/-- Summing an indicator of one key over a duplicate-free list containing
that key yields the indicated value. -/
theorem sum_map_ite_eq {M : Type} [AddCommMonoid M] :
    ∀ (cs : List Nat) (k : Nat) (x : M), cs.Nodup → k ∈ cs →
      (cs.map (fun c => if k = c then x else 0)).sum = x := by
  intro cs k x
  induction cs with
  | nil => intro _ h; simp at h
  | cons c cs ih =>
    intro hnd hmem
    rcases List.mem_cons.mp hmem with rfl | hm
    · simp only [List.map_cons, List.sum_cons, if_pos rfl]
      have hz : (cs.map (fun c' => if k = c' then x else 0)).sum = 0 := by
        apply List.sum_eq_zero
        intro y hy
        obtain ⟨c', hc', rfl⟩ := List.mem_map.mp hy
        have hne : k ≠ c' := fun h => (List.nodup_cons.mp hnd).1 (h ▸ hc')
        simp [hne]
      simp [hz]
    · have hkc : k ≠ c := by
        rintro rfl
        exact (List.nodup_cons.mp hnd).1 hm
      simp only [List.map_cons, List.sum_cons, if_neg hkc, zero_add]
      exact ih (List.nodup_cons.mp hnd).2 hm

/-- Pointwise sums over map. -/
theorem sum_map_add {M : Type} [AddCommMonoid M] (l : List Nat) (g h : Nat → M) :
    (l.map (fun c => g c + h c)).sum = (l.map g).sum + (l.map h).sum := by
  induction l with
  | nil => simp
  | cons c l ih =>
    simp only [List.map_cons, List.sum_cons, ih]
    abel

/-- Grouping a window by status code partitions it: summing any additive
quantity group by group over the distinct status codes equals summing it over
the whole window. -/
theorem sum_dedup_groups {M : Type} [AddCommMonoid M] (f : PingRecord → M) :
    ∀ w : List PingRecord,
      ((w.map (fun r => r.statusCode)).dedup.map
        (fun c => ((w.filter (fun r => r.statusCode == c)).map f).sum)).sum
      = (w.map f).sum := by
  intro w
  induction w with
  | nil => simp
  | cons r w ih =>
    by_cases hmem : r.statusCode ∈ w.map (fun r' => r'.statusCode)
    · rw [List.map_cons, List.dedup_cons_of_mem hmem]
      have hsplit : ∀ c : Nat,
          (((r :: w).filter (fun x => x.statusCode == c)).map f).sum
            = (if r.statusCode = c then f r else 0) +
              ((w.filter (fun x => x.statusCode == c)).map f).sum := by
        intro c
        by_cases hc : r.statusCode = c
        · simp [List.filter_cons, hc]
        · simp [List.filter_cons, hc]
      simp only [hsplit]
      rw [sum_map_add, ih,
        sum_map_ite_eq _ _ _ (List.nodup_dedup _) (List.mem_dedup.mpr hmem)]
      simp
    · rw [List.map_cons, List.dedup_cons_of_not_mem hmem, List.map_cons,
        List.sum_cons]
      have hnil : w.filter (fun x => x.statusCode == r.statusCode) = [] := by
        rw [List.filter_eq_nil_iff]
        intro x hx hbeq
        have hxr : x.statusCode = r.statusCode := by simpa using hbeq
        exact hmem (List.mem_map.mpr ⟨x, hx, hxr⟩)
      have hhead :
          (((r :: w).filter (fun x => x.statusCode == r.statusCode)).map f).sum
            = f r := by
        simp [List.filter_cons, hnil]
      have htail : ((w.map (fun r' => r'.statusCode)).dedup.map
            (fun c => (((r :: w).filter (fun x => x.statusCode == c)).map f).sum))
          = ((w.map (fun r' => r'.statusCode)).dedup.map
            (fun c => ((w.filter (fun x => x.statusCode == c)).map f).sum)) := by
        apply List.map_congr_left
        intro c hc
        have hcr : r.statusCode ≠ c := by
          intro h
          exact hmem (h ▸ List.mem_dedup.mp hc)
        simp [List.filter_cons, hcr]
      rw [hhead, htail, ih]
      simp

/-- A list's length as a sum of ones. -/
theorem length_eq_sum_ones (l : List PingRecord) :
    l.length = (l.map (fun _ => (1 : Nat))).sum := by
  induction l with
  | nil => rfl
  | cons r l ih =>
    simp only [List.length_cons, List.map_cons, List.sum_cons, ih]
    omega

/-- A filtered list's length as a sum of indicators. -/
theorem filter_length_eq_sum_ind (l : List PingRecord) (p : PingRecord → Bool) :
    (l.filter p).length = (l.map (fun r => if p r then (1 : Nat) else 0)).sum := by
  induction l with
  | nil => rfl
  | cons r l ih =>
    by_cases h : p r <;> simp [List.filter_cons, h, ih] <;> try omega

/-- The summed per-group success counts equal the window's success count. -/
theorem sqlStatsRows_successCount (w : List PingRecord) :
    ((sqlStatsRows w).map (fun row => row.successCount)).sum
      = (w.filter (fun r => r.statusCode < 400)).length := by
  simp only [sqlStatsRows, List.map_map, Function.comp_def, mkStatsRow]
  simp only [filter_length_eq_sum_ind]
  exact sum_dedup_groups (fun r => if decide (r.statusCode < 400) = true then (1 : Nat) else 0) w

/-- The JavaScript numerator `Σ (avg_g × count_g)` collapses to the window's
total response time: each group is nonempty, so `avg_g × count_g` is the
group's sum. -/
theorem sqlStatsRows_avgNumerator (w : List PingRecord) :
    ((sqlStatsRows w).map
      (fun row => row.averageResponseTime * (row.totalRequests : ℚ))).sum
      = responseTimeSum w := by
  simp only [sqlStatsRows, List.map_map, Function.comp_def, mkStatsRow]
  have hfix : ∀ c ∈ (w.map (fun r => r.statusCode)).dedup,
      responseTimeSum (w.filter (fun r => r.statusCode == c)) /
          (((w.filter (fun r => r.statusCode == c)).length : ℚ)) *
          (((w.filter (fun r => r.statusCode == c)).length : ℚ))
        = ((w.filter (fun r => r.statusCode == c)).map
            (fun r => (r.responseTime : ℚ))).sum := by
    intro c hc
    obtain ⟨r, hrw, hrc⟩ := List.mem_map.mp (List.mem_dedup.mp hc)
    have hne : w.filter (fun r' => r'.statusCode == c) ≠ [] := by
      intro hnil
      have hrmem : r ∈ w.filter (fun r' => r'.statusCode == c) :=
        List.mem_filter.mpr ⟨hrw, by simp [hrc]⟩
      rw [hnil] at hrmem
      simp at hrmem
    have hlen : (((w.filter (fun r' => r'.statusCode == c)).length : ℚ)) ≠ 0 :=
      Nat.cast_ne_zero.mpr (Nat.pos_iff_ne_zero.mp (List.length_pos.mpr hne))
    rw [div_mul_cancel₀ _ hlen, responseTimeSum]
  rw [List.map_congr_left hfix, responseTimeSum]
  exact sum_dedup_groups (fun r => (r.responseTime : ℚ)) w

/-- The `find?` of the grouped rows: `some` of the group row exactly when the
status code occurs among the keys. -/
theorem find?_map_mkStatsRow (w : List PingRecord) (c : Nat) :
    ∀ ks : List Nat,
      (ks.map (mkStatsRow w)).find? (fun row => row.status_code == c)
        = if c ∈ ks then some (mkStatsRow w c) else none := by
  intro ks
  induction ks with
  | nil => simp
  | cons k ks ih =>
    by_cases hk : k = c
    · subst hk
      simp [List.find?_cons, mkStatsRow]
    · have hkc : ((mkStatsRow w k).status_code == c) = false := by
        simp [mkStatsRow, hk]
      simp only [List.map_cons, List.find?_cons, hkc, ih]
      by_cases hc : c ∈ ks
      · simp [hc, List.mem_cons]
      · simp [hc, List.mem_cons, Ne.symm hk]

/-- The summed group counts equal the window size. -/
theorem sqlStatsRows_totalSum (w : List PingRecord) :
    ((sqlStatsRows w).map (fun row => row.totalRequests)).sum = w.length := by
  simp only [sqlStatsRows, List.map_map, Function.comp_def, mkStatsRow]
  simp only [length_eq_sum_ones]
  exact sum_dedup_groups (fun _ => (1 : Nat)) w

/-- `totalRequests` of the statistics is the window size. -/
theorem getStatistics_totalRequests (w : List PingRecord) :
    (getStatistics w).totalRequests = w.length := by
  simp only [getStatistics]
  exact sqlStatsRows_totalSum w

/-- `successRate` is the rounded success percentage over the window,
`0` on an empty window. -/
theorem getStatistics_successRate (w : List PingRecord) :
    (getStatistics w).successRate =
      if 0 < w.length then
        jsRound (100 * ((w.filter (fun r => r.statusCode < 400)).length : ℚ) /
          (w.length : ℚ))
      else 0 := by
  simp only [getStatistics]
  rw [sqlStatsRows_totalSum, sqlStatsRows_successCount]
  by_cases h : 0 < w.length
  · simp only [if_pos h]
    congr 1
    ring
  · simp only [if_neg h]

/-- `averageResponseTime` is the rounded window mean on a nonempty window and
`NaN` on an empty one (JavaScript `0 / 0`). -/
theorem getStatistics_average (w : List PingRecord) :
    (getStatistics w).averageResponseTime =
      if w.length = 0 then JsNum.nan
      else JsNum.num (jsRound (responseTimeSum w / (w.length : ℚ))) := by
  simp only [getStatistics]
  rw [sqlStatsRows_totalSum, sqlStatsRows_avgNumerator]
  by_cases h : w.length = 0
  · simp [h, jsDiv, jsRoundNum]
  · have hq : ((w.length : ℚ)) ≠ 0 := Nat.cast_ne_zero.mpr h
    simp [h, jsDiv, hq, jsRoundNum]

/-- The distribution returns the occurrence count of each status code present
in the window and nothing for absent codes. -/
theorem getStatistics_distribution (w : List PingRecord) (c : Nat) :
    (getStatistics w).statusCodeDistribution c =
      if c ∈ w.map (fun r => r.statusCode) then
        some ((w.filter (fun r => r.statusCode == c)).length)
      else none := by
  simp only [getStatistics, sqlStatsRows]
  rw [find?_map_mkStatsRow]
  by_cases h : c ∈ (w.map (fun r => r.statusCode)).dedup
  · have h2 : c ∈ w.map (fun r => r.statusCode) := List.mem_dedup.mp h
    simp [h, h2, mkStatsRow]
  · have h2 : c ∉ w.map (fun r => r.statusCode) := fun hh => h (List.mem_dedup.mpr hh)
    simp [h, h2]

/-- **C2, counterexample.**  On the empty window `getStatistics` divides `0`
by `0`, so `averageResponseTime` is `NaN`, not the claimed `0`. -/
theorem C2_counterexample :
    (getStatistics []).averageResponseTime = JsNum.nan ∧
    JsNum.nan ≠ JsNum.num 0 := by
  constructor
  · rw [getStatistics_average]
    simp
  · decide

/-- **C2, amended.**  For every window, `totalRequests` is the window's
record count, `successRatePercent` is `round(100 × count(statusCode < 400) /
totalRequests)` with `0` on an empty window, `averageResponseTimeMs` is
`round(mean of responseTimeMs)` on a nonempty window but `NaN` — not the
claimed `0` — on an empty one, and `statusCodeDistribution` maps exactly the
status codes present in the window to their occurrence counts; the concrete
three-record example yields `3 / 200 / 67 / {200: 2, 500: 1}`. -/
theorem C2_amended :
    (∀ w : List PingRecord,
      (getStatistics w).totalRequests = w.length ∧
      (getStatistics w).successRate =
        (if 0 < w.length then
          jsRound (100 * ((w.filter (fun r => r.statusCode < 400)).length : ℚ) /
            (w.length : ℚ))
        else 0) ∧
      (w ≠ [] →
        (getStatistics w).averageResponseTime =
          JsNum.num (jsRound (responseTimeSum w / (w.length : ℚ)))) ∧
      (w = [] → (getStatistics w).averageResponseTime = JsNum.nan) ∧
      (∀ c : Nat,
        (c ∈ w.map (fun r => r.statusCode) →
          (getStatistics w).statusCodeDistribution c =
            some ((w.filter (fun r => r.statusCode == c)).length)) ∧
        (c ∉ w.map (fun r => r.statusCode) →
          (getStatistics w).statusCodeDistribution c = none))) ∧
    (getStatistics statsWindow3).totalRequests = 3 ∧
    (getStatistics statsWindow3).averageResponseTime = JsNum.num 200 ∧
    (getStatistics statsWindow3).successRate = 67 ∧
    (getStatistics statsWindow3).statusCodeDistribution 200 = some 2 ∧
    (getStatistics statsWindow3).statusCodeDistribution 500 = some 1 := by
  have hsum : responseTimeSum statsWindow3 = 600 := by
    norm_num [responseTimeSum, statsWindow3, mkTestRecord]
  have hflt : ((statsWindow3.filter (fun r => r.statusCode < 400)).length : ℚ) = 2 := by
    norm_num [statsWindow3, mkTestRecord]
  refine ⟨?_, ?_, ?_, ?_, by decide, by decide⟩
  case refine_2 =>
    rw [getStatistics_totalRequests]
    decide
  case refine_3 =>
    rw [getStatistics_average, hsum]
    norm_num [statsWindow3, jsRound]
  case refine_4 =>
    rw [getStatistics_successRate, hflt]
    norm_num [statsWindow3, jsRound]
  intro w
  refine ⟨getStatistics_totalRequests w, getStatistics_successRate w, ?_, ?_, ?_⟩
  · intro hne
    rw [getStatistics_average]
    have hlen : w.length ≠ 0 := fun h => hne (List.length_eq_zero.mp h)
    simp [hlen]
  · intro he
    subst he
    rw [getStatistics_average]
    simp
  · intro c
    constructor
    · intro hc
      rw [getStatistics_distribution]
      simp [hc]
    · intro hc
      rw [getStatistics_distribution]
      simp [hc]

/-- The population variance is nonnegative. -/
theorem rollingVariance_nonneg (values : List ℚ) : 0 ≤ rollingVariance values := by
  unfold rollingVariance
  apply div_nonneg
  · apply List.sum_nonneg
    intro x hx
    obtain ⟨v, -, rfl⟩ := List.mem_map.mp hx
    positivity
  · positivity

/-- A vanishing sum of squared deviations forces every sample onto the
center. -/
theorem sum_sq_dev_eq_zero {m : ℚ} :
    ∀ {l : List ℚ}, (l.map (fun v => (v - m) ^ 2)).sum = 0 → ∀ v ∈ l, v = m := by
  intro l
  induction l with
  | nil =>
    intro _ v hv
    simp at hv
  | cons a l ih =>
    intro h v hv
    rw [List.map_cons, List.sum_cons] at h
    have h2 : 0 ≤ (l.map (fun v => (v - m) ^ 2)).sum := by
      apply List.sum_nonneg
      intro x hx
      obtain ⟨u, -, rfl⟩ := List.mem_map.mp hx
      positivity
    have h1 : 0 ≤ (a - m) ^ 2 := sq_nonneg _
    have ha : (a - m) ^ 2 = 0 := by linarith
    have hs : (l.map (fun v => (v - m) ^ 2)).sum = 0 := by linarith
    rcases List.mem_cons.mp hv with rfl | hvl
    · linarith [sq_eq_zero_iff.mp ha]
    · exact ih hs v hvl

/-- If the variance is zero, every sample equals the mean. -/
theorem rollingVariance_eq_zero {values : List ℚ}
    (h : rollingVariance values = 0) : ∀ v ∈ values, v = rollingMean values := by
  intro v hv
  rcases eq_or_ne ((values.length : ℚ)) 0 with hlen | hlen
  · have hnil : values = [] := by
      cases values with
      | nil => rfl
      | cons a l =>
        rw [List.length_cons] at hlen
        push_cast at hlen
        exact absurd hlen (by positivity)
    subst hnil
    simp at hv
  · have hsum : (values.map (fun x => (x - rollingMean values) ^ 2)).sum = 0 := by
      unfold rollingVariance at h
      rcases div_eq_zero_iff.mp h with h0 | h0
      · exact h0
      · exact absurd h0 hlen
    exact sum_sq_dev_eq_zero hsum v hv

/-- The squared-comparison embedding of the z-score test agrees with the
real-number reading `t < |d| / √v` whenever `v > 0` and `t ≥ 0`. -/
theorem ratZGt_iff {d v t : ℚ} (ht : 0 ≤ t) (hv : 0 < v) :
    t ^ 2 * v < d ^ 2 ↔ (t : ℝ) < |(d : ℝ)| / Real.sqrt ((v : ℚ) : ℝ) := by
  have hvR : (0 : ℝ) < ((v : ℚ) : ℝ) := by exact_mod_cast hv
  have hσ : (0 : ℝ) < Real.sqrt ((v : ℚ) : ℝ) := Real.sqrt_pos.mpr hvR
  rw [lt_div_iff hσ]
  constructor
  · intro h
    have hR : ((t : ℝ)) ^ 2 * ((v : ℚ) : ℝ) < ((d : ℝ)) ^ 2 := by exact_mod_cast h
    have h1 : ((t : ℝ) * Real.sqrt ((v : ℚ) : ℝ)) ^ 2 < |(d : ℝ)| ^ 2 := by
      rw [mul_pow, Real.sq_sqrt hvR.le, sq_abs]
      exact hR
    exact lt_of_pow_lt_pow_left 2 (abs_nonneg _) h1
  · intro h
    have h0 : 0 ≤ (t : ℝ) * Real.sqrt ((v : ℚ) : ℝ) :=
      mul_nonneg (by exact_mod_cast ht) (Real.sqrt_nonneg _)
    have h1 : ((t : ℝ) * Real.sqrt ((v : ℚ) : ℝ)) ^ 2 < |(d : ℝ)| ^ 2 :=
      pow_lt_pow_left h h0 (by norm_num)
    rw [mul_pow, Real.sq_sqrt hvR.le, sq_abs] at h1
    exact_mod_cast h1

/-- On a window with positive variance, the code's squared z-score test is
the spec's `zScore > t`. -/
theorem zScoreGt_iff_sqrt (w : List PingRecord) (r : PingRecord) (t : ℚ)
    (ht : 0 ≤ t) (hv : 0 < rollingVariance (windowResponseTimes w)) :
    (zScoreGt w r t = true) ↔ specZScoreGt w r t := by
  unfold zScoreGt specZScoreGt
  rw [decide_eq_true_eq]
  have hd : ((((r.responseTime : ℚ) - rollingMean (windowResponseTimes w)) : ℚ) : ℝ)
      = (r.responseTime : ℝ) - ((rollingMean (windowResponseTimes w) : ℚ) : ℝ) := by
    push_cast
    ring
  rw [gt_iff_lt, ratZGt_iff ht hv, hd]

/-- With zero variance the spec's z-score comparison never fires (the
quotient degenerates; a nonnegative threshold cannot be exceeded). -/
theorem specZScoreGt_var_zero (w : List PingRecord) (r : PingRecord) (t : ℚ)
    (ht : 0 ≤ t) (hv : rollingVariance (windowResponseTimes w) = 0) :
    ¬ specZScoreGt w r t := by
  unfold specZScoreGt
  rw [hv]
  rw [show (((0 : ℚ)) : ℝ) = 0 from by norm_num, Real.sqrt_zero, div_zero]
  exact not_lt.mpr (by exact_mod_cast ht)

/-- With zero variance the code's z-score test is false on every record of
the window: all its deviations are zero. -/
theorem zScoreGt_var_zero_mem {w : List PingRecord} {r : PingRecord}
    (hr : r ∈ w) (t : ℚ)
    (hv : rollingVariance (windowResponseTimes w) = 0) :
    zScoreGt w r t = false := by
  have hmean := rollingVariance_eq_zero hv ((r.responseTime : ℚ))
    (List.mem_map_of_mem _ hr)
  unfold zScoreGt
  rw [decide_eq_false_iff_not, hv, hmean]
  simp

/-- A record of the window passing the code's z-score test forces positive
variance. -/
theorem zScoreGt_pos_var {w : List PingRecord} {r : PingRecord} (hr : r ∈ w)
    {t : ℚ} (h : zScoreGt w r t = true) :
    0 < rollingVariance (windowResponseTimes w) := by
  rcases (rollingVariance_nonneg (windowResponseTimes w)).lt_or_eq with hv | hv
  · exact hv
  · rw [zScoreGt_var_zero_mem hr t hv.symm] at h
    exact absurd h (by simp)

/-- **C3.**  In the latency check: every emitted event belongs to a record of
the window satisfying the spec's trigger — `zScore > 2.5` (real z-score over
`stdDev = √variance`) and `responseTimeMs > 5000` — references that record's
id, and carries the spec's severity (`high` for `zScore > 3.5`, else `medium`
for `zScore > 3.0`, else `low`); conversely every record satisfying the
trigger gets its event; with `stdDev = 0` no event is emitted; and on the
concrete 21-record window (20 × 100 ms, one 8000 ms record with id 21)
exactly one event is emitted, referencing record 21. -/
theorem latencyWindow21_mean :
    rollingMean (windowResponseTimes latencyWindow21) = 10000 / 21 := by
  norm_num [rollingMean, windowResponseTimes, latencyWindow21, latencyOutlier,
    mkTestRecord]

theorem latencyWindow21_variance :
    rollingVariance (windowResponseTimes latencyWindow21) = 26212200000 / 9261 := by
  unfold rollingVariance
  rw [latencyWindow21_mean]
  norm_num [windowResponseTimes, latencyWindow21, latencyOutlier, mkTestRecord]

/-- Evaluating the latency check on the spec's 21-record example: the 100 ms
records fail the absolute threshold, the 8000 ms record passes both tests
(`zScore = √20 ≈ 4.47`), so exactly one event — severity `high`, record 21 —
is emitted. -/
theorem analyzeResponseTimes_latencyWindow21 :
    analyzeResponseTimes latencyWindow21 =
      [{ timestamp := "2024-01-01T00:00:00", type := AnomalyType.response_time,
         severity := Severity.high, value := 8000, recordId := some 21 }] := by
  have hz100 : ∀ (i : Nat) (ts : String),
      latencyTrigger latencyWindow21 (mkTestRecord i ts 200 100) = false := by
    intro i ts
    simp [latencyTrigger, defaultResponseTimeThreshold, mkTestRecord]
  have hz25 : zScoreGt latencyWindow21 latencyOutlier defaultZScoreThreshold = true := by
    unfold zScoreGt
    rw [latencyWindow21_mean, latencyWindow21_variance, decide_eq_true_eq]
    norm_num [latencyOutlier, mkTestRecord, defaultZScoreThreshold]
  have hz35 : zScoreGt latencyWindow21 latencyOutlier (7 / 2) = true := by
    unfold zScoreGt
    rw [latencyWindow21_mean, latencyWindow21_variance, decide_eq_true_eq]
    norm_num [latencyOutlier, mkTestRecord]
  have hrt : latencyOutlier.responseTime = 8000 := rfl
  have htrig : latencyTrigger latencyWindow21 latencyOutlier = true := by
    simp [latencyTrigger, defaultResponseTimeThreshold, hz25, hrt]
  have hsev : latencySeverity latencyWindow21 latencyOutlier = Severity.high := by
    simp [latencySeverity, hz35]
  have hfields : mkLatencyEvent latencyWindow21 latencyOutlier =
      { timestamp := "2024-01-01T00:00:00", type := AnomalyType.response_time,
        severity := Severity.high, value := 8000, recordId := some 21 } := by
    unfold mkLatencyEvent
    rw [hsev]
    norm_num [latencyOutlier, mkTestRecord]
  obtain ⟨p, hp⟩ : ∃ p, latencyTrigger latencyWindow21 = p := ⟨_, rfl⟩
  have htrig2 : p latencyOutlier = true := by
    rw [← hp]
    exact htrig
  have hz1002 : ∀ (i : Nat) (ts : String), p (mkTestRecord i ts 200 100) = false := by
    intro i ts
    rw [← hp]
    exact hz100 i ts
  have hfilter : latencyWindow21.filter p = [latencyOutlier] := by
    rw [latencyWindow21]
    simp [List.filter_cons, hz1002, htrig2]
  unfold analyzeResponseTimes
  rw [hp, hfilter]
  simp [hfields]

theorem C3 :
    (∀ w : List PingRecord, ∀ e ∈ analyzeResponseTimes w, ∃ r ∈ w,
      specZScoreGt w r defaultZScoreThreshold ∧
      defaultResponseTimeThreshold < r.responseTime ∧
      e = mkLatencyEvent w r ∧
      e.recordId = some r.id ∧
      (specZScoreGt w r (7 / 2) → e.severity = Severity.high) ∧
      (¬ specZScoreGt w r (7 / 2) → specZScoreGt w r 3 →
        e.severity = Severity.medium) ∧
      (¬ specZScoreGt w r (7 / 2) → ¬ specZScoreGt w r 3 →
        e.severity = Severity.low)) ∧
    (∀ w : List PingRecord, ∀ r ∈ w,
      specZScoreGt w r defaultZScoreThreshold →
      defaultResponseTimeThreshold < r.responseTime →
      mkLatencyEvent w r ∈ analyzeResponseTimes w) ∧
    (∀ w : List PingRecord, rollingVariance (windowResponseTimes w) = 0 →
      analyzeResponseTimes w = []) ∧
    analyzeResponseTimes latencyWindow21 =
      [{ timestamp := "2024-01-01T00:00:00", type := AnomalyType.response_time,
         severity := Severity.high, value := 8000, recordId := some 21 }] := by
  refine ⟨?_, ?_, ?_, analyzeResponseTimes_latencyWindow21⟩
  · intro w e he
    obtain ⟨r, hrf, rfl⟩ := List.mem_map.mp he
    obtain ⟨hrw, htrig⟩ := List.mem_filter.mp hrf
    simp only [latencyTrigger, Bool.and_eq_true, decide_eq_true_eq] at htrig
    have hv := zScoreGt_pos_var hrw htrig.1
    refine ⟨r, hrw,
      (zScoreGt_iff_sqrt w r defaultZScoreThreshold
        (by norm_num [defaultZScoreThreshold]) hv).mp htrig.1,
      htrig.2, rfl, rfl, ?_, ?_, ?_⟩
    · intro h35
      have hb := (zScoreGt_iff_sqrt w r (7 / 2) (by norm_num) hv).mpr h35
      simp [mkLatencyEvent, latencySeverity, hb]
    · intro hn35 h3
      have hb35 : zScoreGt w r (7 / 2) = false := by
        cases hb : zScoreGt w r (7 / 2) with
        | false => rfl
        | true =>
          exact absurd ((zScoreGt_iff_sqrt w r (7 / 2) (by norm_num) hv).mp hb) hn35
      have hb3 := (zScoreGt_iff_sqrt w r 3 (by norm_num) hv).mpr h3
      simp [mkLatencyEvent, latencySeverity, hb35, hb3]
    · intro hn35 hn3
      have hb35 : zScoreGt w r (7 / 2) = false := by
        cases hb : zScoreGt w r (7 / 2) with
        | false => rfl
        | true =>
          exact absurd ((zScoreGt_iff_sqrt w r (7 / 2) (by norm_num) hv).mp hb) hn35
      have hb3 : zScoreGt w r 3 = false := by
        cases hb : zScoreGt w r 3 with
        | false => rfl
        | true =>
          exact absurd ((zScoreGt_iff_sqrt w r 3 (by norm_num) hv).mp hb) hn3
      simp [mkLatencyEvent, latencySeverity, hb35, hb3]
  · intro w r hrw hspec habs
    have hv : 0 < rollingVariance (windowResponseTimes w) := by
      rcases (rollingVariance_nonneg (windowResponseTimes w)).lt_or_eq with hv | hv
      · exact hv
      · exact absurd hspec
          (specZScoreGt_var_zero w r defaultZScoreThreshold
            (by norm_num [defaultZScoreThreshold]) hv.symm)
    have hz := (zScoreGt_iff_sqrt w r defaultZScoreThreshold
      (by norm_num [defaultZScoreThreshold]) hv).mpr hspec
    apply List.mem_map_of_mem
    apply List.mem_filter.mpr
    refine ⟨hrw, ?_⟩
    simp only [latencyTrigger, Bool.and_eq_true, decide_eq_true_eq]
    exact ⟨hz, habs⟩
  · intro w hv
    have hnil : w.filter (latencyTrigger w) = [] := by
      rw [List.filter_eq_nil_iff]
      intro r hr htrig
      have hz : zScoreGt w r defaultZScoreThreshold = false :=
        zScoreGt_var_zero_mem hr defaultZScoreThreshold hv
      simp only [latencyTrigger, Bool.and_eq_true] at htrig
      rw [hz] at htrig
      exact absurd htrig.1 (by simp)
    simp [analyzeResponseTimes, hnil]

end HttpbinMonitor
